import Mathlib

/-!
Verification of the seqtypo model-collection and response-parsing layer
(`seqtypo/models.py`, `seqtypo/api.py`) against its specification.

The Python code is shallowly embedded: pydantic dataclasses become Lean
structures, `__post_init__` derivation logic becomes explicit construction
functions, Python `dict`s become insertion-ordered association lists, and
fallible constructors return `Except PyError`.  String operations used by
the source (`in`, `split`, `re.sub` with literal patterns, `strip`) are
implemented on `List Char` so that every definition evaluates by `rfl` /
`decide` on concrete inputs.
-/

namespace Seqtypo

/-- The Python error kinds raised by the embedded code paths:
`TypeError`, `ValueError` (also standing for pydantic validation errors,
which derive from it in spirit), and `AttributeError`. -/
inductive PyError where
  | typeError
  | valueError
  | attributeError
deriving DecidableEq

/-- Python `sub in s` on strings: `sub` occurs as a contiguous substring of
`s` (always true for `sub = ""`). -/
def pyIn (sub s : String) : Bool :=
  decide (sub.toList <:+: s.toList)

/-- Fuel-driven worker for Python `re.sub(pat, rep, s)` restricted to the
non-empty literal patterns the source uses: replaces non-overlapping
occurrences left to right.  The fuel is the length of the subject, which
always suffices; it only makes the recursion structural. -/
def replaceListAux (pat rep : List Char) : Nat → List Char → List Char
  | _, [] => []
  | 0, l => l
  | fuel + 1, x :: xs =>
    if pat ≠ [] ∧ pat.isPrefixOf (x :: xs) then
      rep ++ replaceListAux pat rep fuel ((x :: xs).drop pat.length)
    else
      x :: replaceListAux pat rep fuel xs

/-- Python `re.sub(pat, rep, s)` for the literal patterns of the source. -/
def pyReplace (s pat rep : String) : String :=
  String.mk (replaceListAux pat.toList rep.toList s.toList.length s.toList)

/-- Python `s.strip()`: remove leading and trailing whitespace. -/
def pyStrip (s : String) : String :=
  String.mk (((s.toList.dropWhile Char.isWhitespace).reverse.dropWhile
    Char.isWhitespace).reverse)

/-- Fuel-driven worker for Python `s.split(sep)` with non-empty separator
`c :: cs`; fuel is the length of the subject, which always suffices. -/
def splitOnAux (c : Char) (cs : List Char) : Nat → List Char → List (List Char)
  | _, [] => [[]]
  | 0, l => [l]
  | fuel + 1, x :: xs =>
    if (c :: cs).isPrefixOf (x :: xs) then
      [] :: splitOnAux c cs fuel (xs.drop cs.length)
    else
      match splitOnAux c cs fuel xs with
      | [] => [[x]]
      | h :: t => (x :: h) :: t

/-- Python `s.split(sep)` for a non-empty separator (an empty separator
raises in Python and never occurs in the source). -/
def pySplit (s sep : String) : List String :=
  match sep.toList with
  | [] => [s]
  | c :: cs => (splitOnAux c cs s.toList.length s.toList).map String.mk

/-- `SchemeCategory.MLST.value` from `models.py`. -/
def SchemeCategory.MLST : String := "MLST"

/-- `SchemeCategory.CGMLST.value` from `models.py`. -/
def SchemeCategory.CGMLST : String := "cgMLST"

/-- `SchemeCategory.OTHERS.value` from `models.py`. -/
def SchemeCategory.OTHERS : String := "others"

/-- `DatabaseCategory.SEQDEF.value` from `models.py`. -/
def DatabaseCategory.SEQDEF : String := "seqdef"

/-- `DatabaseCategory.SEQDEF_LARGE.value` from `models.py`. -/
def DatabaseCategory.SEQDEF_LARGE : String := "sequence/profile definitions"

/-- `DatabaseCategory.ISOLATES.value` from `models.py`. -/
def DatabaseCategory.ISOLATES : String := "isolates"

/-- `DatabaseCategory.OTHERS.value` from `models.py`. -/
def DatabaseCategory.OTHERS : String := "others"

/-- `determine_category` from `models.py`: scheme classification from the
description string. -/
def determine_category (description : String) : String :=
  if pyIn SchemeCategory.CGMLST description then SchemeCategory.CGMLST
  else if pyIn SchemeCategory.MLST description then SchemeCategory.MLST
  else SchemeCategory.OTHERS

/-- `DatabaseModel` from `models.py`, after construction: `category` and
`subject` are the derived fields set by `__post_init__` (they are declared
with `None` defaults and overwritten there).  `href` is an `AnyUrl` in the
source; URL well-formedness checking is pydantic transport-level glue and
is modelled as a plain string. -/
structure DatabaseModel where
  description : String
  href : String
  name : String
  category : Option String
  subject : Option String
deriving DecidableEq

/-- `DatabaseModel._determine_category` from `models.py`: database
classification from the name string. -/
def DatabaseModel.determine_category (name : String) : String :=
  if pyIn DatabaseCategory.SEQDEF name then DatabaseCategory.SEQDEF
  else if pyIn DatabaseCategory.ISOLATES name then DatabaseCategory.ISOLATES
  else DatabaseCategory.OTHERS

/-- `DatabaseModel._parse_subject` from `models.py`: strip the boilerplate
patterns from the description (all the patterns are regex-free literals,
so `re.sub` is literal replacement), then strip whitespace. -/
def DatabaseModel.parse_subject (description : String) : String :=
  let patterns_to_remove : List String :=
    ["REST API access to ", " database", DatabaseCategory.ISOLATES,
      DatabaseCategory.SEQDEF_LARGE, DatabaseCategory.SEQDEF]
  pyStrip (patterns_to_remove.foldl (fun subject pat => pyReplace subject pat "") description)

/-- Construction of a `DatabaseModel` from its three raw input fields,
including the `__post_init__` derivation of `category` and `subject`. -/
def DatabaseModel.make (description href name : String) : DatabaseModel :=
  { description := description, href := href, name := name,
    category := some (DatabaseModel.determine_category name),
    subject := some (DatabaseModel.parse_subject description) }

/-- `SchemeModel` from `models.py`, after construction: `category` and
`query_endpoint` are the derived fields set by `__post_init__`. -/
structure SchemeModel where
  scheme : String
  description : String
  category : Option String
  query_endpoint : Option String
deriving DecidableEq

/-- Construction of a `SchemeModel` from its two raw input fields,
including the `__post_init__` derivation. -/
def SchemeModel.make (scheme description : String) : SchemeModel :=
  { scheme := scheme, description := description,
    category := some (determine_category description),
    query_endpoint := some (scheme ++ "/sequence") }

/-- `ModelList` from `models.py`: the generic ordered container.  The
element type parameter stands for the runtime content of `self.data`; the
per-specialization element class (`self.model = self._get_model()`) enters
through explicit `isinst` predicates where the source does `isinstance`
checks. -/
structure ModelList (α : Type) where
  data : List α
deriving DecidableEq

/-- `ModelList.__init__` from `models.py`.  It stores `data` and the model
class and nothing else.  `ModelList` is a plain Python class (not a
dataclass), so the `__post_init__` method defined on it is never invoked
by anything: construction performs no validation and cannot fail. -/
def ModelList.init {α : Type} (data : List α) : Except PyError (ModelList α) :=
  .ok ⟨data⟩

/-- `ModelList._validate_input` from `models.py`: `TypeError` unless every
element is an instance of the specialization's model class.  (The source's
first check, that the input is a `list` at all, is carried by the Lean
type of the argument.) -/
def ModelList.validate_input {α : Type} (isinst : α → Bool) (input_list : List α) :
    Except PyError Unit :=
  if input_list.all isinst then .ok () else .error .typeError

/-- `ModelList.search` from `models.py`.  `attrv` is the resolved
`getattr(data, attr)` accessor, `catv` the `data.category` accessor, and
`regexSearch p v` stands for `re.compile(p).search(v)` being truthy (the
regex engine itself is external to this embedding).  Python truthiness of
the `pattern` and `category` arguments (`if pattern:` / `if category:`) is
`some` of a non-empty string.  The result is `self.__class__(filtered)`,
i.e. a collection of the same specialization. -/
def ModelList.search {α : Type} (C : ModelList α) (attrv : α → String)
    (catv : α → String) (regexSearch : String → String → Bool)
    (pattern : Option String) (category : Option String)
    (exact_match : Bool) (use_regex : Bool) : ModelList α :=
  let filtered₀ := C.data
  let filtered₁ :=
    match pattern with
    | none => filtered₀
    | some p =>
      if p = "" then filtered₀
      else if use_regex then filtered₀.filter (fun d => regexSearch p (attrv d))
      else if exact_match then filtered₀.filter (fun d => p == attrv d)
      else filtered₀.filter (fun d => pyIn p (attrv d))
  let filtered₂ :=
    match category with
    | none => filtered₁
    | some c =>
      if c = "" then filtered₁
      else filtered₁.filter (fun d => catv d == c)
  ⟨filtered₂⟩

/-- `ModelList.from_list_of_model_lists` from `models.py`:
`itertools.chain(*[model.data for model in data])` collected into a new
collection of the same specialization (again via bare `cls(...)`, so no
validation runs). -/
def ModelList.from_list_of_model_lists {α : Type} (data : List (ModelList α)) :
    ModelList α :=
  let data_list := data.map (fun model => model.data)
  ⟨data_list.flatten⟩

/-- A decoded JSON value, as handed to the `from_json` assemblers.  An
object is an insertion-ordered association list with unique keys, like a
Python `dict`. -/
inductive Json where
  | null
  | bool (b : Bool)
  | num (n : Int)
  | str (s : String)
  | arr (elems : List Json)
  | obj (fields : List (String × Json))

/-- Read a required pydantic `str` field out of a kwargs dict; a missing
key or a non-string value is a validation failure. -/
def getStrField (o : List (String × Json)) (k : String) : Except PyError String :=
  match o.lookup k with
  | some (.str s) => .ok s
  | _ => .error .typeError

/-- Read an `Optional[str]` pydantic field out of a kwargs dict: absent or
`null` gives `none`, a string gives `some`, anything else is a validation
failure. -/
def getOptStrField (o : List (String × Json)) (k : String) :
    Except PyError (Option String) :=
  match o.lookup k with
  | none => .ok none
  | some .null => .ok none
  | some (.str s) => .ok (some s)
  | some _ => .error .typeError

/-- `cls(**value)` rejects keyword arguments that are not fields of the
dataclass. -/
def kwargsKeysOk (o : List (String × Json)) (allowed : List String) : Bool :=
  o.all (fun p => allowed.contains p.1)

/-- `DatabaseModel(**value)` from a decoded JSON object: the three raw
fields are required strings, `category` and `subject` have defaults and
are overwritten by `__post_init__` regardless. -/
def DatabaseModel.from_kwargs (j : Json) : Except PyError DatabaseModel :=
  match j with
  | .obj o =>
    if kwargsKeysOk o ["description", "href", "name", "category", "subject"] then
      match getStrField o "description", getStrField o "href", getStrField o "name" with
      | .ok d, .ok h, .ok n => .ok (DatabaseModel.make d h n)
      | _, _, _ => .error .typeError
    else .error .typeError
  | _ => .error .typeError

/-- `ApiResourceModel` from `models.py`, after construction: the raw
`databases: List[Dict]` field has been replaced in place by a
`DatabaseList` by `__post_init__` via `_set_list_model`. -/
structure ApiResourceModel where
  databases : ModelList DatabaseModel
  description : String
  name : String
  long_description : Option String
deriving DecidableEq

/-- `ApiResourceModel(**value)` from a decoded JSON object, including its
`__post_init__`, which runs `_set_list_model('databases', DatabaseModel,
DatabaseList)`: every element of the raw `databases` list is instantiated
as a `DatabaseModel`, any instantiation failure is re-raised as a
`ValueError`, and the result is stored through `DatabaseList.__init__`
(which, being a bare `ModelList` constructor, does not validate). -/
def ApiResourceModel.from_kwargs (j : Json) : Except PyError ApiResourceModel :=
  match j with
  | .obj o =>
    if kwargsKeysOk o ["databases", "description", "name", "long_description"] then
      match o.lookup "databases", getStrField o "description", getStrField o "name",
          getOptStrField o "long_description" with
      | some (.arr dbs), .ok desc, .ok nm, .ok ld =>
        match dbs.mapM DatabaseModel.from_kwargs with
        | .ok db_models =>
          .ok ⟨⟨db_models⟩, desc, nm, ld⟩
        | .error _ => .error .valueError
      | _, _, _, _ => .error .typeError
    else .error .typeError
  | _ => .error .typeError

/-- `ApiResourceCollectionModel` from `models.py`, after construction: the
raw `resources` list has been replaced by a `ResourceList` by
`__post_init__`. -/
structure ApiResourceCollectionModel where
  resources : ModelList ApiResourceModel

/-- `ApiResourceCollectionModel(resources=...)` from a decoded JSON list,
including `__post_init__` (`_set_list_model('resources', ApiResourceModel,
ResourceList)`): instantiation failures of any element become a
`ValueError`. -/
def ApiResourceCollectionModel.construct (resources : List Json) :
    Except PyError ApiResourceCollectionModel :=
  match resources.mapM ApiResourceModel.from_kwargs with
  | .ok resource_models => .ok ⟨⟨resource_models⟩⟩
  | .error _ => .error .valueError

/-- `ApiResourceCollectionModel.from_json` from `models.py`: a JSON list
is wrapped into the `resources` field (`cls(resources=json)`); any other
JSON shape raises `ValueError`. -/
def ApiResourceCollectionModel.from_json (j : Json) :
    Except PyError ApiResourceCollectionModel :=
  match j with
  | .arr l => ApiResourceCollectionModel.construct l
  | _ => .error .valueError

/-- Runtime values that may populate a `ModelList` when Python's dynamic
typing is in play: the three entity kinds held by the collection
specializations (`DatabaseList`, `SchemeList`, `ResourceList`), plus a
plainly wrong-typed value such as an `int`. -/
inductive PyVal where
  | dbModel (m : DatabaseModel)
  | schemeModel (m : SchemeModel)
  | resourceModel (m : ApiResourceModel)
  | intVal (n : Int)
deriving DecidableEq

/-- `isinstance(v, DatabaseModel)`, the `DatabaseList` element check. -/
def PyVal.isDatabaseModel : PyVal → Bool
  | .dbModel _ => true
  | _ => false

/-- `isinstance(v, SchemeModel)`, the `SchemeList` element check. -/
def PyVal.isSchemeModel : PyVal → Bool
  | .schemeModel _ => true
  | _ => false

/-- `isinstance(v, ApiResourceModel)`, the `ResourceList` element check. -/
def PyVal.isApiResourceModel : PyVal → Bool
  | .resourceModel _ => true
  | _ => false

/-- One match dict of an `exact_matches` entry: the keyword arguments
passed through to `AlleleExactResult` alongside the injected
`allele_name` (so exactly its fields minus `allele_name`). -/
structure ExactMatch where
  allele_id : Int
  href : Option String := none
  start : Option Int := none
  «end» : Option Int := none
  orientation : Option String := none
  length : Option Int := none
  contig : Option String := none
  linked_data : Option Json := none

/-- `AlleleExactResult` from `models.py`. -/
structure AlleleExactResult where
  allele_id : Int
  href : Option String := none
  allele_name : Option String := none
  start : Option Int := none
  «end» : Option Int := none
  orientation : Option String := none
  length : Option Int := none
  contig : Option String := none
  linked_data : Option Json := none

/-- `AlleleExactResult(allele_name=allele, **value)` as performed in
`SequenceQueryResult.__post_init__`. -/
def AlleleExactResult.of_match (allele_name : String) (m : ExactMatch) :
    AlleleExactResult :=
  { allele_id := m.allele_id, href := m.href, allele_name := some allele_name,
    start := m.start, «end» := m.«end», orientation := m.orientation,
    length := m.length, contig := m.contig, linked_data := m.linked_data }

/-- `SequenceQueryResult.__post_init__` from `models.py`, acting on the
raw `exact_matches` constructor argument (a locus-name-keyed dict,
embedded as an insertion-ordered association list; `None` is the declared
default).  On `None` the loop header `self.exact_matches.items()` raises
`AttributeError`; otherwise the dict is flattened into the list the field
is replaced with. -/
def SequenceQueryResult.post_init
    (exact_matches : Option (List (String × List ExactMatch))) :
    Except PyError (List AlleleExactResult) :=
  match exact_matches with
  | none => .error .attributeError
  | some em =>
    .ok (em.foldl (fun acc p => acc ++ p.2.map (AlleleExactResult.of_match p.1)) [])

/-- `SchemeQueryResult` adds nothing: it inherits
`SequenceQueryResult.__post_init__` unchanged. -/
def SchemeQueryResult.post_init :
    Option (List (String × List ExactMatch)) →
    Except PyError (List AlleleExactResult) :=
  SequenceQueryResult.post_init

/-- `TaxonModel` from `models.py`, after construction: `taxonomy` has been
split on `" > "` by `__post_init__`. -/
structure TaxonModel where
  taxon : String
  taxonomy : List String
  support : Int
  rank : String
deriving DecidableEq

/-- `TaxonModel(**value)` including its `__post_init__` split. -/
def TaxonModel.make (taxon taxonomy : String) (support : Int) (rank : String) :
    TaxonModel :=
  { taxon := taxon, taxonomy := pySplit taxonomy " > ", support := support,
    rank := rank }

/-- `rMLSTResultModel.__post_init__` from `models.py`: first the inherited
flattening runs (`super().__post_init__()`), then, if `taxon_prediction`
is truthy, its raw entries (taxon, taxonomy, support, rank) are converted
to `TaxonModel`s. -/
def rMLSTResultModel.post_init
    (exact_matches : Option (List (String × List ExactMatch)))
    (taxon_prediction : Option (List (String × String × Int × String))) :
    Except PyError (List AlleleExactResult × Option (List TaxonModel)) := do
  let flattened ← SequenceQueryResult.post_init exact_matches
  let taxa :=
    match taxon_prediction with
    | none => none
    | some l =>
      if l = [] then some []
      else some (l.map (fun r => TaxonModel.make r.1 r.2.1 r.2.2.1 r.2.2.2))
  return (flattened, taxa)

/-- Python `url.split('/')[-1]`, the locus-name key used by
`FullSchemeApi._index_loci` (`split` on a non-empty separator never
returns an empty list, so the default of `getLastD` is unreachable). -/
def lastSegment (url : String) : String :=
  (pySplit url "/").getLastD ""

/-- `d[k] = v` on a Python dict embedded as an insertion-ordered
association list: an existing key keeps its position and gets the new
value, a new key is appended. -/
def pyDictSetItem (d : List (String × String)) (k v : String) :
    List (String × String) :=
  if d.any (fun p => p.1 == k) then
    d.map (fun p => if p.1 == k then (p.1, v) else p)
  else d ++ [(k, v)]

/-- `FullSchemeApi._index_loci` from `api.py`: the dict comprehension
`{loci.split('/')[-1]: loci for loci in self.model.loci}` over the
`FullSchemeModel.loci` URL list. -/
def FullSchemeApi.index_loci (loci : List String) : List (String × String) :=
  loci.foldl (fun d url => pyDictSetItem d (lastSegment url) url) []

/-- `FullSchemeApi.list_loci` from `api.py`: the keys of the locus index,
in order. -/
def FullSchemeApi.list_loci (loci : List String) : List String :=
  (FullSchemeApi.index_loci loci).map (fun p => p.1)

/-- `FullSchemeApi.get_alleles_fasta` from `api.py`, with the transport
step abstracted: when the requested name is a key of the locus index the
method fetches the indexed URL and returns the parsed alleles, embedded
here as `.ok (some url)` for the URL it resolves and fetches; when the
name is absent it prints `'Loci does not exits'` and returns `None`
(`.ok none`) — no exception of any kind is raised (the source carries the
comment `# COnvertir en raise error` at exactly this spot). -/
def FullSchemeApi.get_alleles_fasta (loci_index : List (String × String))
    (loci : String) : Except PyError (Option String) :=
  match loci_index.lookup loci with
  | some url => .ok (some url)
  | none => .ok none

/-- A concrete sequence-definitions database entity, as assembled from a
typical API response. -/
def exampleDb1 : DatabaseModel :=
  DatabaseModel.make
    "REST API access to PubMLST Neisseria spp. sequence/profile definitions database"
    "https://rest.pubmlst.org/db/pubmlst_neisseria_seqdef"
    "pubmlst_neisseria_seqdef"

/-- A concrete isolates database entity. -/
def exampleDb2 : DatabaseModel :=
  DatabaseModel.make
    "REST API access to PubMLST Neisseria spp. isolates database"
    "https://rest.pubmlst.org/db/pubmlst_neisseria_isolates"
    "pubmlst_neisseria_isolates"

/-- A concrete two-element `DatabaseList`. -/
def exampleDbList : ModelList DatabaseModel :=
  ⟨[exampleDb1, exampleDb2]⟩

/-- The resolved `getattr(data, 'name')` accessor on database entities. -/
def dbNameAttr : DatabaseModel → String := fun d => d.name

/-- The resolved `data.category` accessor on database entities (the field
always holds a string after construction; `getD` only discharges the
`Option` of the declared `None` default). -/
def dbCategoryAttr : DatabaseModel → String := fun d => d.category.getD ""

/-- A stand-in compiled-regex matcher for witnesses: matches anything. -/
def trivialRegex : String → String → Bool := fun _ _ => true

/-- The raw JSON object of `exampleDb1`. -/
def exampleDatabaseJson : Json :=
  Json.obj
    [("description",
      Json.str "REST API access to PubMLST Neisseria spp. sequence/profile definitions database"),
     ("href", Json.str "https://rest.pubmlst.org/db/pubmlst_neisseria_seqdef"),
     ("name", Json.str "pubmlst_neisseria_seqdef")]

/-- A raw JSON resource object holding one database. -/
def exampleResourceJson : Json :=
  Json.obj
    [("databases", Json.arr [exampleDatabaseJson]),
     ("description", Json.str "Neisseria spp."),
     ("name", Json.str "neisseria")]

/-- Two locus URLs with distinct final segments, as in the spec's
locus-index example. -/
def exampleLoci : List String :=
  ["https://rest.pubmlst.org/db/test_db/loci/abc123",
   "https://rest.pubmlst.org/db/test_db/loci/xyz789"]

theorem foldl_append_map_eq_flatten {β γ : Type} (f : β → List γ)
    (l : List β) (acc : List γ) :
    l.foldl (fun a b => a ++ f b) acc = acc ++ (l.map f).flatten := by
  induction l generalizing acc with
  | nil => simp
  | cons hd tl ih => simp [ih, List.append_assoc]

/-- C9: searching with an empty-string pattern and no category leaves the
collection untouched: `if pattern:` treats `""` as absent, so no
exact-match filter (which would keep only elements whose attribute is
`""`) ever runs. -/
theorem C9_empty_pattern_is_no_filter {α : Type} (C : ModelList α)
    (attrv catv : α → String) (regexSearch : String → String → Bool)
    (exact_match use_regex : Bool) :
    C.search attrv catv regexSearch (some "") none exact_match use_regex = C :=
  rfl

/-- C5: category derivation.  A database name containing `"seqdef"` is
classified `seqdef`; one containing `"isolates"` but not `"seqdef"` is
`isolates`; otherwise `others`.  A scheme description containing
`"cgMLST"` is `cgMLST`; one containing `"MLST"` but not `"cgMLST"` is
`MLST`; one containing neither is `others`. -/
theorem C5_category_derivation (name description : String) :
    (pyIn DatabaseCategory.SEQDEF name = true →
      DatabaseModel.determine_category name = DatabaseCategory.SEQDEF) ∧
    (pyIn DatabaseCategory.SEQDEF name = false →
      pyIn DatabaseCategory.ISOLATES name = true →
      DatabaseModel.determine_category name = DatabaseCategory.ISOLATES) ∧
    (pyIn DatabaseCategory.SEQDEF name = false →
      pyIn DatabaseCategory.ISOLATES name = false →
      DatabaseModel.determine_category name = DatabaseCategory.OTHERS) ∧
    (pyIn SchemeCategory.CGMLST description = true →
      determine_category description = SchemeCategory.CGMLST) ∧
    (pyIn SchemeCategory.CGMLST description = false →
      pyIn SchemeCategory.MLST description = true →
      determine_category description = SchemeCategory.MLST) ∧
    (pyIn SchemeCategory.CGMLST description = false →
      pyIn SchemeCategory.MLST description = false →
      determine_category description = SchemeCategory.OTHERS) := by
  refine ⟨fun h1 => ?_, fun h1 h2 => ?_, fun h1 h2 => ?_,
    fun h1 => ?_, fun h1 h2 => ?_, fun h1 h2 => ?_⟩
  · simp [DatabaseModel.determine_category, h1]
  · simp [DatabaseModel.determine_category, h1, h2]
  · simp [DatabaseModel.determine_category, h1, h2]
  · simp [determine_category, h1]
  · simp [determine_category, h1, h2]
  · simp [determine_category, h1, h2]

/-- C5 witness: the derivation evaluated on concrete names and
descriptions of each class. -/
theorem C5_category_derivation_witness :
    DatabaseModel.determine_category "pubmlst_neisseria_seqdef" = "seqdef" ∧
    DatabaseModel.determine_category "pubmlst_neisseria_isolates" = "isolates" ∧
    DatabaseModel.determine_category "pubmlst_rmlst_kiosk" = "others" ∧
    determine_category "Neisseria cgMLST v3" = "cgMLST" ∧
    determine_category "MLST (Achtman)" = "MLST" ∧
    determine_category "ribosomal genes" = "others" :=
  ⟨(C5_category_derivation "pubmlst_neisseria_seqdef" "x").1 (by decide),
   (C5_category_derivation "pubmlst_neisseria_isolates" "x").2.1 (by decide) (by decide),
   (C5_category_derivation "pubmlst_rmlst_kiosk" "x").2.2.1 (by decide) (by decide),
   (C5_category_derivation "x" "Neisseria cgMLST v3").2.2.2.1 (by decide),
   (C5_category_derivation "x" "MLST (Achtman)").2.2.2.2.1 (by decide) (by decide),
   (C5_category_derivation "x" "ribosomal genes").2.2.2.2.2 (by decide) (by decide)⟩

/-- C2 (code bug): constructing a collection specialization from a list
holding a wrongly-typed element does not raise: `ModelList` is a plain
class, so the `__post_init__` that would call `_validate_input` is never
invoked and `__init__` stores the list as is.  `_validate_input` itself,
had it been called, would raise `TypeError` for each specialization. -/
theorem C2_construction_skips_validation :
    ModelList.init (α := PyVal) [PyVal.intVal 42]
      = .ok ⟨[PyVal.intVal 42]⟩ ∧
    ModelList.validate_input PyVal.isDatabaseModel [PyVal.intVal 42]
      = .error .typeError ∧
    ModelList.validate_input PyVal.isSchemeModel [PyVal.intVal 42]
      = .error .typeError ∧
    ModelList.validate_input PyVal.isApiResourceModel [PyVal.intVal 42]
      = .error .typeError :=
  ⟨rfl, rfl, rfl, rfl⟩

/-- C6: flattening two collections of one specialization concatenates
their contents in order, so the result has length `len(L1) + len(L2)` and
preserves the relative order within each source collection. -/
theorem C6_flatten_pair {α : Type} (L1 L2 : ModelList α) :
    (ModelList.from_list_of_model_lists [L1, L2]).data = L1.data ++ L2.data ∧
    (ModelList.from_list_of_model_lists [L1, L2]).data.length
      = L1.data.length + L2.data.length := by
  refine ⟨?_, ?_⟩ <;> simp [ModelList.from_list_of_model_lists]

/-- C10: constructing a `SequenceQueryResult` (or its scheme/rMLST
subtypes) with `exact_matches` omitted or `None` fails during
`__post_init__` (`None.items()` raises `AttributeError`) instead of
producing an empty match list, making the nominally-optional field de
facto required. -/
theorem C10_exact_matches_de_facto_required :
    SequenceQueryResult.post_init none = .error .attributeError ∧
    SchemeQueryResult.post_init none = .error .attributeError ∧
    (∀ taxon_prediction,
      rMLSTResultModel.post_init none taxon_prediction
        = .error .attributeError) :=
  ⟨rfl, rfl, fun _ => rfl⟩

/-- C3 (code bug): requesting the alleles of a locus name absent from the
index does not fail at all — the method prints a message and returns
`None` — instead of raising the LookupError-equivalent the specification
(and the source's own `# COnvertir en raise error` comment) call for. -/
theorem C3_unknown_locus_returns_none :
    FullSchemeApi.get_alleles_fasta (FullSchemeApi.index_loci exampleLoci)
        "missing_locus"
      = .ok none := by
  rfl

/-- C4: `exact_matches` is flattened from the locus-name-keyed mapping
into one flat ordered list of `AlleleExactResult`s, one per match, each
tagged with `allele_name` set to the key it came from; in particular the
spec's two-locus example yields exactly two entries tagged `"abc"` and
`"xyz"`. -/
theorem C4_exact_match_flattening :
    (∀ em : List (String × List ExactMatch),
      SequenceQueryResult.post_init (some em)
        = .ok ((em.map (fun p => p.2.map (AlleleExactResult.of_match p.1))).flatten)) ∧
    (∀ em : List (String × List ExactMatch),
      ((em.map (fun p => p.2.map (AlleleExactResult.of_match p.1))).flatten).length
        = (em.map (fun p => p.2.length)).sum) ∧
    (∀ k m, (AlleleExactResult.of_match k m).allele_name = some k) ∧
    SequenceQueryResult.post_init
        (some [("abc", [{ allele_id := 1 }]), ("xyz", [{ allele_id := 2 }])])
      = .ok [{ allele_id := 1, allele_name := some "abc" },
             { allele_id := 2, allele_name := some "xyz" }] := by
  refine ⟨fun em => ?_, fun em => ?_, fun k m => rfl, rfl⟩
  · simp [SequenceQueryResult.post_init, foldl_append_map_eq_flatten]
  · simp [List.length_flatten, List.map_map, Function.comp_def, List.length_map]

theorem index_loci_go (loci : List String) (acc : List (String × String))
    (hdisj : ∀ u ∈ loci, ∀ q ∈ acc, q.1 ≠ lastSegment u)
    (hnd : (loci.map lastSegment).Nodup) :
    loci.foldl (fun d url => pyDictSetItem d (lastSegment url) url) acc
      = acc ++ loci.map (fun u => (lastSegment u, u)) := by
  induction loci generalizing acc with
  | nil => simp
  | cons hd tl ih =>
    have hnotin : acc.any (fun q => q.1 == lastSegment hd) = false := by
      rw [List.any_eq_false]
      intro q hq
      simpa using hdisj hd (List.mem_cons_self hd tl) q hq
    have hstep : pyDictSetItem acc (lastSegment hd) hd
        = acc ++ [(lastSegment hd, hd)] := by
      simp [pyDictSetItem, hnotin]
    have hnd' : (∀ x ∈ tl, ¬ lastSegment x = lastSegment hd) ∧
        (tl.map lastSegment).Nodup := by simpa using hnd
    rw [List.foldl_cons, hstep, ih (acc ++ [(lastSegment hd, hd)]) ?_ hnd'.2]
    · simp
    · intro u hu q hq
      rcases List.mem_append.mp hq with h | h
      · exact hdisj u (List.mem_cons_of_mem _ hu) q h
      · have hq1 : q.1 = lastSegment hd := by
          rcases List.mem_singleton.mp h with rfl
          rfl
        rw [hq1]
        intro heq
        exact hnd'.1 u hu heq.symm

theorem lookup_map_lastSegment (loci : List String)
    (hnd : (loci.map lastSegment).Nodup) :
    ∀ u ∈ loci,
      (loci.map (fun v => (lastSegment v, v))).lookup (lastSegment u) = some u := by
  induction loci with
  | nil => simp
  | cons hd tl ih =>
    have hnd' : (∀ x ∈ tl, ¬ lastSegment x = lastSegment hd) ∧
        (tl.map lastSegment).Nodup := by simpa using hnd
    intro u hu
    rcases List.mem_cons.mp hu with rfl | hmem
    · simp [List.lookup]
    · have hne : (lastSegment u == lastSegment hd) = false := by
        rw [beq_eq_false_iff_ne]
        exact hnd'.1 u hmem
      simp only [List.map_cons, List.lookup, hne]
      exact ih hnd'.2 u hmem

/-- C7 counterexample: two loci URLs sharing the final segment `shared`.
The dict comprehension lets the later URL overwrite the earlier one, so
the index does not map each URL's final segment to that URL. -/
theorem C7_counterexample :
    ¬ (∀ u ∈ ["https://host/loci/shared", "https://mirror/loci/shared"],
        (FullSchemeApi.index_loci
            ["https://host/loci/shared", "https://mirror/loci/shared"]).lookup
            (lastSegment u)
          = some u) := by
  decide

/-- C7 (amended): when the loci URLs have pairwise-distinct final
segments — as in the spec's example — the derived index maps, for each
URL, the substring after the final `/` to that full URL, and `list_loci`
returns exactly those keys in order.  (With duplicated final segments the
later URL overwrites the earlier entry.) -/
theorem C7_index_loci_distinct (loci : List String)
    (hnd : (loci.map lastSegment).Nodup) :
    FullSchemeApi.index_loci loci = loci.map (fun u => (lastSegment u, u)) ∧
    (∀ u ∈ loci,
      (FullSchemeApi.index_loci loci).lookup (lastSegment u) = some u) ∧
    FullSchemeApi.list_loci loci = loci.map lastSegment := by
  have hidx : FullSchemeApi.index_loci loci
      = loci.map (fun u => (lastSegment u, u)) := by
    have := index_loci_go loci [] (by simp) hnd
    simpa [FullSchemeApi.index_loci] using this
  refine ⟨hidx, ?_, ?_⟩
  · intro u hu
    rw [hidx]
    exact lookup_map_lastSegment loci hnd u hu
  · rw [FullSchemeApi.list_loci, hidx, List.map_map]
    rfl

/-- C1 counterexample: the claim as stated fails when the supplied
category is the empty string.  `if category:` treats `""` as absent, so
the code keeps `exampleDb1` (category `"seqdef"`), whereas the claim
demands the result be restricted to elements whose category equals the
supplied `""`. -/
theorem C1_counterexample :
    (exampleDbList.search dbNameAttr dbCategoryAttr trivialRegex
        (some "pubmlst_neisseria_seqdef") (some "") true false).data
      = [exampleDb1] ∧
    ¬ (∀ e ∈ (exampleDbList.search dbNameAttr dbCategoryAttr trivialRegex
        (some "pubmlst_neisseria_seqdef") (some "") true false).data,
        dbCategoryAttr e = "") := by
  refine ⟨by decide, ?_⟩
  intro h
  have := h exampleDb1 (by decide)
  exact absurd this (by decide)

/-- C1 (amended): search semantics for a non-empty pattern `p`.  With
`exact_match` and no regex the result holds exactly the elements whose
attribute equals `p`; with `exact_match=false` exactly those with `p` as
a substring; with `use_regex` exactly those the regex matcher accepts;
supplying a non-empty category further restricts any of these to the
elements of that category (logical AND), and the result — a collection of
the same specialization by construction — preserves insertion order
(it is a sublist of the input).  An empty-string category, like an
empty-string pattern, is treated as absent. -/
theorem C1_search_semantics {α : Type} (C : ModelList α) (attrv catv : α → String)
    (regexSearch : String → String → Bool) (p c : String)
    (hp : p ≠ "") (hc : c ≠ "") :
    (∀ e, e ∈ (C.search attrv catv regexSearch (some p) none true false).data ↔
      e ∈ C.data ∧ attrv e = p) ∧
    (∀ e, e ∈ (C.search attrv catv regexSearch (some p) none false false).data ↔
      e ∈ C.data ∧ p.toList <:+: (attrv e).toList) ∧
    (∀ exact_match, ∀ e,
      e ∈ (C.search attrv catv regexSearch (some p) none exact_match true).data ↔
        e ∈ C.data ∧ regexSearch p (attrv e) = true) ∧
    (∀ exact_match use_regex,
      (C.search attrv catv regexSearch (some p) (some c) exact_match use_regex).data
        = ((C.search attrv catv regexSearch (some p) none exact_match use_regex).data.filter
            (fun e => catv e == c))) ∧
    (∀ e, e ∈ (C.search attrv catv regexSearch (some p) (some c) true false).data ↔
      e ∈ C.data ∧ attrv e = p ∧ catv e = c) ∧
    (∀ exact_match use_regex,
      List.Sublist
        (C.search attrv catv regexSearch (some p) (some c) exact_match use_regex).data
        C.data) := by
  have hpe : ¬ (p = "") := hp
  have hce : ¬ (c = "") := hc
  refine ⟨fun e => ?_, fun e => ?_, fun em e => ?_, fun em ur => ?_,
    fun e => ?_, fun em ur => ?_⟩
  · simp [ModelList.search, hpe, List.mem_filter, beq_iff_eq, @eq_comm String p]
  · simp [ModelList.search, hpe, List.mem_filter, pyIn, decide_eq_true_eq]
  · simp [ModelList.search, hpe, List.mem_filter]
  · simp [ModelList.search, hpe, hce]
  · simp [ModelList.search, hpe, hce, List.mem_filter, beq_iff_eq, and_assoc]
    intro _
    constructor
    · rintro ⟨h1, h2⟩
      exact ⟨h2.symm, h1⟩
    · rintro ⟨h1, h2⟩
      exact ⟨h2, h1.symm⟩
  · simp only [ModelList.search, if_neg hpe, if_neg hce]
    cases ur <;> cases em <;>
      exact (List.filter_sublist _).trans (List.filter_sublist _)

/-- C1 witness: the amended search semantics instantiated on a concrete
two-database collection, attribute `name`, pattern
`pubmlst_neisseria_seqdef` and category `seqdef`. -/
theorem C1_search_semantics_witness :
    (∀ e, e ∈ (exampleDbList.search dbNameAttr dbCategoryAttr trivialRegex
        (some "pubmlst_neisseria_seqdef") none true false).data ↔
      e ∈ exampleDbList.data ∧ dbNameAttr e = "pubmlst_neisseria_seqdef") ∧
    (∀ e, e ∈ (exampleDbList.search dbNameAttr dbCategoryAttr trivialRegex
        (some "pubmlst_neisseria_seqdef") none false false).data ↔
      e ∈ exampleDbList.data ∧
        "pubmlst_neisseria_seqdef".toList <:+: (dbNameAttr e).toList) ∧
    (∀ exact_match, ∀ e,
      e ∈ (exampleDbList.search dbNameAttr dbCategoryAttr trivialRegex
          (some "pubmlst_neisseria_seqdef") none exact_match true).data ↔
        e ∈ exampleDbList.data ∧
          trivialRegex "pubmlst_neisseria_seqdef" (dbNameAttr e) = true) ∧
    (∀ exact_match use_regex,
      (exampleDbList.search dbNameAttr dbCategoryAttr trivialRegex
          (some "pubmlst_neisseria_seqdef") (some "seqdef") exact_match use_regex).data
        = ((exampleDbList.search dbNameAttr dbCategoryAttr trivialRegex
            (some "pubmlst_neisseria_seqdef") none exact_match use_regex).data.filter
              (fun e => dbCategoryAttr e == "seqdef"))) ∧
    (∀ e, e ∈ (exampleDbList.search dbNameAttr dbCategoryAttr trivialRegex
        (some "pubmlst_neisseria_seqdef") (some "seqdef") true false).data ↔
      e ∈ exampleDbList.data ∧ dbNameAttr e = "pubmlst_neisseria_seqdef" ∧
        dbCategoryAttr e = "seqdef") ∧
    (∀ exact_match use_regex,
      List.Sublist
        (exampleDbList.search dbNameAttr dbCategoryAttr trivialRegex
          (some "pubmlst_neisseria_seqdef") (some "seqdef") exact_match use_regex).data
        exampleDbList.data) :=
  C1_search_semantics exampleDbList dbNameAttr dbCategoryAttr trivialRegex
    "pubmlst_neisseria_seqdef" "seqdef" (by decide) (by decide)

/-- C8: the resource-index assembler accepts exactly the raw-list JSON
shape: a list is wrapped into the `resources` field and the collection
built from it (shown both generically and on a concrete one-resource
payload, evaluated through the nested database assembly); every non-list
JSON value — objects included — is rejected with an error. -/
theorem C8_resource_index_from_json :
    (∀ j : Json, (∀ l, j ≠ Json.arr l) →
      ApiResourceCollectionModel.from_json j = .error .valueError) ∧
    (∀ l, ApiResourceCollectionModel.from_json (Json.arr l)
      = ApiResourceCollectionModel.construct l) ∧
    ApiResourceCollectionModel.from_json (Json.arr [exampleResourceJson])
      = .ok ⟨⟨[⟨⟨[DatabaseModel.make
          "REST API access to PubMLST Neisseria spp. sequence/profile definitions database"
          "https://rest.pubmlst.org/db/pubmlst_neisseria_seqdef"
          "pubmlst_neisseria_seqdef"]⟩,
        "Neisseria spp.", "neisseria", none⟩]⟩⟩ := by
  refine ⟨fun j h => ?_, fun l => rfl, rfl⟩
  cases j with
  | arr l => exact absurd rfl (h l)
  | null => rfl
  | bool b => rfl
  | num n => rfl
  | str s => rfl
  | obj o => rfl

/-- C8 witness: the non-list branch exercised on a JSON object (the
`{"resources": [...]}` shape) and on `null`. -/
theorem C8_resource_index_from_json_witness :
    ApiResourceCollectionModel.from_json (Json.obj [("resources", Json.arr [])])
      = .error .valueError ∧
    ApiResourceCollectionModel.from_json Json.null = .error .valueError :=
  ⟨C8_resource_index_from_json.1 _ (fun l h => by cases h),
   C8_resource_index_from_json.1 _ (fun l h => by cases h)⟩

/-- C7 witness: the spec's example loci URLs, whose index has exactly the
keys `abc123` and `xyz789` mapping to their full URLs. -/
theorem C7_index_loci_distinct_witness :
    (FullSchemeApi.index_loci exampleLoci
        = exampleLoci.map (fun u => (lastSegment u, u)) ∧
      (∀ u ∈ exampleLoci,
        (FullSchemeApi.index_loci exampleLoci).lookup (lastSegment u) = some u) ∧
      FullSchemeApi.list_loci exampleLoci = exampleLoci.map lastSegment) ∧
    FullSchemeApi.list_loci exampleLoci = ["abc123", "xyz789"] :=
  ⟨C7_index_loci_distinct exampleLoci (by decide), by decide⟩

end Seqtypo
